import Mathlib

/-!
Verification of the QR pairing relay (`qrChannel`) and the device store of
this repository.  The relay is embedded as a small-step interleaving
semantics: every atomic Go operation (an atomic compare-and-swap, a channel
send, a channel close, a channel receive, a handler removal, a disconnect
request) is one step of one thread, and a scheduler list decides which
thread moves.  Goroutines are threads; `go qrc.emitQRs(evt)` spawns a new
thread.  Go rules embedded faithfully:

* a buffered channel of capacity 7 (`make(chan QRChannelItem, 7)`);
* `close` of an already-closed channel panics;
* a send on a closed channel panics (also inside a `select` with `default`);
* a `select` send with `default` takes `default` when the buffer is full;
* `atomic.CompareAndSwapUint32(&closed, 0, 1)` succeeds for exactly one caller;
* a receive on the closed `stopQRs` channel is always ready;
* `time.After` is a timer that may fire whenever the scheduler lets time pass;
* a panic halts the whole program (no recover anywhere in this code).

Instrumentation fields (`casWinner`, `terminalWriters`, `closers`,
`removeHandlerCount`, `disconnectCount`) record which thread performed
which effect; they never influence control flow.
-/

namespace Whatsmeow

/-- `type QRChannelItem string` from the source. -/
abbrev QRChannelItem := String

/-- `QRChannelSuccess`: emitted when the pairing is successful. -/
def QRChannelSuccess : QRChannelItem := "success"

/-- `QRChannelTimeout`: emitted if the socket is disconnected before pairing. -/
def QRChannelTimeout : QRChannelItem := "timeout"

/-- `QRChannelErrUnexpectedEvent`: emitted on an unexpected connection event. -/
def QRChannelErrUnexpectedEvent : QRChannelItem := "err-unexpected-state"

/-- `IsQR` returns true if the item is an actual QR code, not a close event. -/
def QRChannelItem.IsQR (qrci : QRChannelItem) : Bool :=
  qrci != QRChannelSuccess && qrci != QRChannelTimeout &&
    qrci != QRChannelErrUnexpectedEvent

/-- Capacity of the output channel: `make(chan QRChannelItem, 7)`. -/
def qrChanCap : Nat := 7

/-- The event kinds `handleEvent` dispatches on.  `events.QR` carries the
code list and the per-code timeout; `other` stands for every event type
that falls into the `default` branch of the type switch. -/
inductive Event where
  | qr (codes : List String) (timeout : Nat)
  | pairSuccess
  | disconnected
  | connected
  | connectFailure
  | other
deriving Repr, DecidableEq

/-- Shared state of one `qrChannel` value, plus instrumentation.
`written` is the full ordered history of values successfully sent on
`output`; `readCount` is how many of them the consumer has received, so
the buffer currently holds `written.length - readCount` values. -/
structure Sys where
  closed : Bool
  stopClosed : Bool
  outClosed : Bool
  written : List QRChannelItem
  readCount : Nat
  casWinner : Option Nat
  terminalWriters : List Nat
  closers : List Nat
  removeHandlerCount : Nat
  disconnectCount : Nat
  panicked : Bool
deriving Repr, DecidableEq

/-- Number of values currently sitting in the output channel's buffer. -/
def Sys.bufferLen (s : Sys) : Nat := s.written.length - s.readCount

/-- Control points of a running goroutine.  The `handler*` points are the
statements of `qrChannel.handleEvent`, the `emit*` points the statements of
`qrChannel.emitQRs`; each constructor is the statement about to execute. -/
inductive Thread where
  /-- entry of `handleEvent(rawEvt)`: the type switch. -/
  | handlerStart (evt : Event)
  /-- `close(qrc.stopQRs)` with the chosen terminal value pending. -/
  | handlerCloseStop (v : QRChannelItem)
  /-- `atomic.CompareAndSwapUint32(&qrc.closed, 0, 1)` in `handleEvent`. -/
  | handlerCas (v : QRChannelItem)
  /-- `qrc.output <- outputType` (blocking send). -/
  | handlerSend (v : QRChannelItem)
  /-- `close(qrc.output)` in `handleEvent`. -/
  | handlerCloseOut
  /-- `qrc.cli.RemoveEventHandler(qrc.handlerID)`. -/
  | handlerRemove
  /-- top of the `for` loop of `emitQRs` with the remaining codes. -/
  | emitLoop (codes : List String)
  /-- `atomic.CompareAndSwapUint32(&qrc.closed, 0, 1)` in `emitQRs`. -/
  | emitCas
  /-- `qrc.output <- QRChannelTimeout` (blocking send). -/
  | emitSendTimeout
  /-- `close(qrc.output)` in `emitQRs`. -/
  | emitCloseOut
  /-- `qrc.cli.Disconnect()`. -/
  | emitDisconnect
  /-- `select { case qrc.output <- code: ... default: return }`. -/
  | emitTrySend (c : String) (rest : List String)
  /-- `select { case <-time.After(evt.Timeout): case <-qrc.stopQRs: }`. -/
  | emitWait (rest : List String)
  /-- the goroutine has returned. -/
  | done
deriving Repr, DecidableEq

/-- One atomic step of the thread `t` whose index is `tid`.  `choice`
resolves the timer-versus-stop nondeterminism of `emitWait`.  Returns the
new shared state, the thread's next control point, and an optionally
spawned goroutine. -/
def stepThread (tid : Nat) (choice : Bool) (t : Thread) (s : Sys) :
    Sys × Thread × Option Thread :=
  match t with
  | .handlerStart evt =>
    match evt with
    | .qr codes _ => (s, .done, some (.emitLoop codes))
    | .pairSuccess => (s, .handlerCloseStop QRChannelSuccess, none)
    | .disconnected => (s, .handlerCloseStop QRChannelTimeout, none)
    | .connected => (s, .handlerCloseStop QRChannelErrUnexpectedEvent, none)
    | .connectFailure => (s, .handlerCloseStop QRChannelErrUnexpectedEvent, none)
    | .other => (s, .done, none)
  | .handlerCloseStop v =>
    if s.stopClosed then ({ s with panicked := true }, .done, none)
    else ({ s with stopClosed := true }, .handlerCas v, none)
  | .handlerCas v =>
    if s.closed then (s, .handlerRemove, none)
    else ({ s with closed := true, casWinner := some tid }, .handlerSend v, none)
  | .handlerSend v =>
    if s.outClosed then ({ s with panicked := true }, .done, none)
    else if qrChanCap ≤ s.bufferLen then (s, .handlerSend v, none)
    else ({ s with written := s.written ++ [v],
                   terminalWriters := s.terminalWriters ++ [tid] },
          .handlerCloseOut, none)
  | .handlerCloseOut =>
    if s.outClosed then ({ s with panicked := true }, .done, none)
    else ({ s with outClosed := true, closers := s.closers ++ [tid] },
          .handlerRemove, none)
  | .handlerRemove =>
    ({ s with removeHandlerCount := s.removeHandlerCount + 1 }, .done, none)
  | .emitLoop codes =>
    match codes with
    | [] => (s, .emitCas, none)
    | c :: rest => (s, .emitTrySend c rest, none)
  | .emitCas =>
    if s.closed then (s, .done, none)
    else ({ s with closed := true, casWinner := some tid }, .emitSendTimeout, none)
  | .emitSendTimeout =>
    if s.outClosed then ({ s with panicked := true }, .done, none)
    else if qrChanCap ≤ s.bufferLen then (s, .emitSendTimeout, none)
    else ({ s with written := s.written ++ [QRChannelTimeout],
                   terminalWriters := s.terminalWriters ++ [tid] },
          .emitCloseOut, none)
  | .emitCloseOut =>
    if s.outClosed then ({ s with panicked := true }, .done, none)
    else ({ s with outClosed := true, closers := s.closers ++ [tid] },
          .emitDisconnect, none)
  | .emitDisconnect =>
    ({ s with disconnectCount := s.disconnectCount + 1 }, .done, none)
  | .emitTrySend c rest =>
    if s.outClosed then ({ s with panicked := true }, .done, none)
    else if qrChanCap ≤ s.bufferLen then (s, .done, none)
    else ({ s with written := s.written ++ [c] }, .emitWait rest, none)
  | .emitWait rest =>
    if choice && s.stopClosed then (s, .done, none)
    else (s, .emitLoop rest, none)
  | .done => (s, .done, none)

/-- A whole-system configuration: the shared state and all goroutines. -/
structure Config where
  st : Sys
  threads : List Thread
deriving Repr, DecidableEq

/-- A scheduler action: run one step of thread `i` (with the wait-choice
`choice`), or let the consumer receive one value from the output channel. -/
inductive SchedAct where
  | thread (i : Nat) (choice : Bool)
  | read
deriving Repr, DecidableEq

/-- One scheduler-chosen atomic step of the whole system.  After a panic
the program has crashed and nothing moves.  A consumer receive takes one
buffered value if there is one and otherwise blocks (no effect). -/
def step (cfg : Config) (a : SchedAct) : Config :=
  match a with
  | .read =>
    if cfg.st.panicked then cfg
    else if 0 < cfg.st.bufferLen then
      { cfg with st := { cfg.st with readCount := cfg.st.readCount + 1 } }
    else cfg
  | .thread i choice =>
    if cfg.st.panicked then cfg
    else
      match cfg.threads[i]? with
      | none => cfg
      | some t =>
        let r := stepThread i choice t cfg.st
        { st := r.1,
          threads :=
            match r.2.2 with
            | none => cfg.threads.set i r.2.1
            | some u => cfg.threads.set i r.2.1 ++ [u] }

/-- Run the system under a scheduler. -/
def run (cfg : Config) : List SchedAct → Config
  | [] => cfg
  | a :: acts => run (step cfg a) acts

/-- The fresh shared state made by `GetQRChannel`: flag 0, both channels
open, nothing written. -/
def freshSys : Sys :=
  { closed := false, stopClosed := false, outClosed := false, written := [],
    readCount := 0, casWinner := none, terminalWriters := [], closers := [],
    removeHandlerCount := 0, disconnectCount := 0, panicked := false }

/-- Initial configuration of one relay: every delivered event is one
invocation of `handleEvent`, i.e. one thread at `handlerStart`. -/
def initConfig (evts : List Event) : Config :=
  { st := freshSys, threads := evts.map Thread.handlerStart }

/-! ### The entry point `Client.GetQRChannel` -/

/-- `types.JID`: only compared against nil here, kept abstract as a string. -/
abbrev JID := String

/-- The two errors `GetQRChannel` can return. -/
inductive QRChannelError where
  | ErrQRAlreadyConnected
  | ErrQRStoreContainsID
deriving Repr, DecidableEq

/-- The part of `Client` that `GetQRChannel` consults: the connectivity
query `IsConnected()` and the stored device identity `cli.Store.ID`. -/
structure Client where
  connected : Bool
  storeID : Option JID
deriving Repr, DecidableEq

/-- `cli.IsConnected()`. -/
def Client.IsConnected (cli : Client) : Bool := cli.connected

/-- What one call of `GetQRChannel` returns and does: the returned channel
(`some capacity` for a freshly made channel, `none` for nil), the returned
error, and whether `AddEventHandler` was called to subscribe the relay. -/
structure GetQRChannelResult where
  channel : Option Nat
  err : Option QRChannelError
  subscribed : Bool
deriving Repr, DecidableEq

/-- `Client.GetQRChannel`: the precondition checks and stream creation,
line by line from the source. -/
def Client.GetQRChannel (cli : Client) : GetQRChannelResult :=
  if cli.IsConnected then
    { channel := none, err := some .ErrQRAlreadyConnected, subscribed := false }
  else if cli.storeID.isSome then
    { channel := none, err := some .ErrQRStoreContainsID, subscribed := false }
  else
    { channel := some qrChanCap, err := none, subscribed := true }

/-! ### The device store (`store/store.go`) -/

/-- Error value returned by a `DeviceContainer`, kept abstract. -/
abbrev StoreError := String

/-- The fields of `store.Device` that `Delete` can observe or change.
The key material and the sub-store interfaces are opaque to `Delete` and
are represented by the scalar fields kept here. -/
structure Device where
  RegistrationID : Nat
  ID : Option JID
  Platform : String
  BusinessName : String
  PushName : String
  Initialized : Bool
deriving Repr, DecidableEq

/-- `Device.Delete`: calls the container's `DeleteDevice` (modelled as the
function argument, since `DeviceContainer` is an interface), propagates its
error and otherwise clears `device.ID`.  Returns the Go return value
together with the device as left behind. -/
def Device.Delete (device : Device)
    (deleteDevice : Device → Option StoreError) : Option StoreError × Device :=
  match deleteDevice device with
  | some err => (some err, device)
  | none => (none, { device with ID := none })

/-! ### Distinguished runs and schedules used by the theorems -/

/-- State after a handler thread alone has completed a terminal path for
value `v`: stop signal closed, flag won by thread 0, `v` written, stream
closed, handler removed. -/
def termSys (v : QRChannelItem) : Sys :=
  { closed := true, stopClosed := true, outClosed := true, written := [v],
    readCount := 0, casWinner := some 0, terminalWriters := [0],
    closers := [0], removeHandlerCount := 1, disconnectCount := 0,
    panicked := false }

/-- Run a single delivered event through all six handler statements. -/
def oneHandlerRun (e : Event) : Config :=
  run (initConfig [e]) (List.replicate 6 (.thread 0 false))

/-- A clean mid-run state: history `w` fully drained by the consumer,
no flag set, both channels open. -/
def mkClean (w : List QRChannelItem) : Sys :=
  { freshSys with written := w, readCount := w.length }

/-- The schedule of the normal undisturbed emitter run: for each code, the
emitter pops and sends it, the consumer reads it, the timer elapses; on the
empty tail the emitter takes the timeout path. -/
def drainSched : List String → List SchedAct
  | [] => [.thread 1 false, .thread 1 false, .thread 1 false,
           .thread 1 false, .thread 1 false]
  | _ :: rest => .thread 1 false :: .thread 1 false :: .read ::
      .thread 1 false :: drainSched rest

/-- Final state of the normal undisturbed emitter run over history `l`:
all codes written and read, `Timeout` written by the emitter (thread 1),
stream closed by it, one disconnect requested, handler never removed. -/
def drainedSys (l : List QRChannelItem) : Sys :=
  { closed := true, stopClosed := false, outClosed := true,
    written := l ++ [QRChannelTimeout], readCount := l.length,
    casWinner := some 1, terminalWriters := [1], closers := [1],
    removeHandlerCount := 0, disconnectCount := 1, panicked := false }

/-- The full system run for a code-sequence event that is never disturbed
by a terminal event while the consumer keeps draining. -/
def c5Run (codes : List String) (t : Nat) : Config :=
  run (initConfig [.qr codes t]) (.thread 0 false :: drainSched codes)

/-- Interleaving in which the handler's `PairSuccess` terminal path races
an emitter that has already popped a code: the emitter's buffered send
lands between the handler's terminal write and its close. -/
def raceInit : Config := initConfig [.pairSuccess, .qr ["1@ABC"] 20]

/-- thread 1 dispatches and spawns the emitter (thread 2); the emitter pops
`"1@ABC"`; thread 0 then runs its whole terminal path, except that the
emitter's select-send executes between `output <- Success` and
`close(output)`. -/
def raceSched : List SchedAct :=
  [.thread 1 false, .thread 2 false, .thread 0 false, .thread 0 false,
   .thread 0 false, .thread 0 false, .thread 2 false, .thread 0 false,
   .thread 0 false]

/-- Two terminal events delivered one after the other: `PairSuccess` runs
to completion, then `Disconnected` is delivered to the same handler. -/
def doubleTerminalRun : Config :=
  run (initConfig [.pairSuccess, .disconnected])
    (List.replicate 6 (.thread 0 false) ++ [.thread 1 false, .thread 1 false])

/-- A state whose output buffer is full: seven values written, none read. -/
def fullBufSys : Sys :=
  { freshSys with written := ["a", "b", "c", "d", "e", "f", "g"] }

/-- Interleaving in which the emitter (spawned for an empty sequence) wins
the CAS but has not yet written `Timeout` when a `Disconnected` event's
handler runs its whole path: the handler loses the CAS and unsubscribes
before any terminal value exists. -/
def lostRaceRun : Config :=
  run (initConfig [.qr [] 5, .disconnected])
    [.thread 0 false, .thread 2 false, .thread 2 false,
     .thread 1 false, .thread 1 false, .thread 1 false, .thread 1 false]

/-- An initially empty code sequence, run to completion. -/
def emptySeqRun : Config :=
  run (initConfig [.qr [] 3])
    [.thread 0 false, .thread 1 false, .thread 1 false, .thread 1 false,
     .thread 1 false, .thread 1 false]

/-- Position of a thread inside the CAS-winner's terminal critical path:
`some 1` = about to write the terminal value, `some 2` = about to close the
stream, `none` = not inside the write-close window. -/
def winPhase : Thread → Option Nat
  | .handlerSend _ => some 1
  | .emitSendTimeout => some 1
  | .handlerCloseOut => some 2
  | .emitCloseOut => some 2
  | _ => none

/-- True for handler control points past `close(qrc.stopQRs)`. -/
def postStop : Thread → Bool
  | .handlerCas _ => true
  | .handlerSend _ => true
  | .handlerCloseOut => true
  | .handlerRemove => true
  | _ => false

/-- The inductive invariant of a non-panicked relay configuration.
It ties the closed flag, the CAS winner, the instrumentation lists and the
control points of all live threads together. -/
structure SInv (s : Sys) (ts : List Thread) : Prop where
  closed_iff : s.closed = s.casWinner.isSome
  win_thread : ∀ (i : Nat) (t : Thread), ts[i]? = some t → (winPhase t).isSome → s.casWinner = some i
  winner_phase : ∀ (w : Nat), s.casWinner = some w →
    ∃ t, ts[w]? = some t ∧
      ((winPhase t = some 1 ∧ s.terminalWriters = [] ∧ s.closers = [] ∧
          s.outClosed = false) ∨
       (winPhase t = some 2 ∧ s.terminalWriters = [w] ∧ s.closers = [] ∧
          s.outClosed = false) ∨
       (winPhase t = none ∧ s.terminalWriters = [w] ∧ s.closers = [w] ∧
          s.outClosed = true))
  no_winner : s.casWinner = none →
    s.terminalWriters = [] ∧ s.closers = [] ∧ s.outClosed = false
  post_stop : ∀ (i : Nat) (t : Thread), ts[i]? = some t → postStop t = true → s.stopClosed = true
  post_stop_uniq : ∀ (i j : Nat) (ti tj : Thread), ts[i]? = some ti → ts[j]? = some tj →
    postStop ti = true → postStop tj = true → i = j
  remove_le : s.removeHandlerCount ≤ 1
  remove_no_post : 1 ≤ s.removeHandlerCount →
    ∀ (i : Nat) (t : Thread), ts[i]? = some t → postStop t = false
  remove_closed : 1 ≤ s.removeHandlerCount → s.closed = true
  stop_remove : s.stopClosed = false → s.removeHandlerCount = 0
  hrem_closed : ∀ (i : Nat), ts[i]? = some Thread.handlerRemove → s.closed = true

/-- Claim-level invariant of C1 (amended): at most one terminal write and
at most one close ever happen, both only by the recorded CAS winner, a
terminal write only after the flag is set, and the stream is closed exactly
when some thread has executed `close(output)`. -/
def relayInv (s : Sys) : Bool :=
  decide (s.terminalWriters.length ≤ 1) &&
  decide (s.closers.length ≤ 1) &&
  s.terminalWriters.all (fun i => s.casWinner == some i) &&
  s.closers.all (fun i => s.casWinner == some i) &&
  (s.terminalWriters.isEmpty || s.closed) &&
  (s.closers.isEmpty == !s.outClosed)

/-- Claim-level invariant of C7 (amended): at most one unsubscription ever
happens, and only after the closed flag is set. -/
def unsubInv (s : Sys) : Bool :=
  decide (s.removeHandlerCount ≤ 1) &&
  (s.removeHandlerCount == 0 || s.closed)

/-- The global invariant carried through the induction: after a panic the
program is frozen and only the claim-level facts are kept; otherwise the
full structural invariant holds. -/
def GInv (cfg : Config) : Prop :=
  if cfg.st.panicked = true then
    relayInv cfg.st = true ∧ unsubInv cfg.st = true
  else SInv cfg.st cfg.threads

/-- Threads that can never execute `RemoveEventHandler`: handler
invocations for non-terminal events and everything in `emitQRs`. -/
def noRemove : Thread → Bool
  | .handlerStart (.qr _ _) => true
  | .handlerStart .other => true
  | .handlerStart _ => false
  | .handlerCloseStop _ => false
  | .handlerCas _ => false
  | .handlerSend _ => false
  | .handlerCloseOut => false
  | .handlerRemove => false
  | .emitLoop _ => true
  | .emitCas => true
  | .emitSendTimeout => true
  | .emitCloseOut => true
  | .emitDisconnect => true
  | .emitTrySend _ _ => true
  | .emitWait _ => true
  | .done => true

/-- Configurations in which no thread can ever unsubscribe. -/
def QROnly (cfg : Config) : Prop :=
  (∀ (i : Nat) (t : Thread), cfg.threads[i]? = some t → noRemove t = true) ∧
  cfg.st.removeHandlerCount = 0

/-! ### Theorems -/

lemma lt_of_lookup {ts : List Thread} {i : Nat} {t : Thread}
    (h : ts[i]? = some t) : i < ts.length := by
  by_contra hc
  rw [List.getElem?_eq_none (by omega)] at h
  exact Option.noConfusion h

lemma mem_of_lookup {ts : List Thread} {i : Nat} {t : Thread}
    (h : ts[i]? = some t) : t ∈ ts := by
  induction ts generalizing i with
  | nil => simp at h
  | cons a l ih =>
    cases i with
    | zero => simp at h; simp [h]
    | succ n => simp at h; exact List.mem_cons_of_mem a (ih h)

/-- Index-precise description of the thread list after one step: the
stepped thread `i` replaced by `t'` and the spawned threads `ex` appended. -/
lemma lookup_post (ts : List Thread) (ex : List Thread) (i : Nat) (t' : Thread)
    (hi : i < ts.length) (j : Nat) :
    (ts.set i t' ++ ex)[j]? =
      if j = i then some t'
      else if j < ts.length then ts[j]?
      else ex[j - ts.length]? := by
  rw [List.getElem?_append, List.length_set, List.getElem?_set]
  by_cases h1 : j = i <;> by_cases h2 : j < ts.length <;>
    simp [h1, h2, hi] <;> omega



/-- Case split for an index into a thread list updated at `i`. -/
lemma lookup_set (t' : Thread) {ts : List Thread} {i : Nat}
    (hi : i < ts.length) :
    ∀ (j : Nat) (u : Thread), (ts.set i t')[j]? = some u →
      (j = i ∧ u = t') ∨ (j ≠ i ∧ ts[j]? = some u) := by
  intro j u hj
  have hlp := lookup_post ts [] i t' hi j
  rw [List.append_nil] at hlp
  rw [hlp] at hj
  split_ifs at hj with h1 h2
  · cases hj; exact Or.inl ⟨h1, rfl⟩
  · exact Or.inr ⟨h1, hj⟩
  · simp at hj

/-- The updated slot holds the new thread. -/
lemma lookup_set_self {ts : List Thread} {i : Nat} {t' : Thread}
    (hi : i < ts.length) : (ts.set i t')[i]? = some t' := by
  have hlp := lookup_post ts [] i t' hi i
  rw [List.append_nil] at hlp
  rw [hlp]
  simp

/-- An untouched slot keeps its thread. -/
lemma lookup_set_other {ts : List Thread} {i : Nat} {t' : Thread}
    (hi : i < ts.length) {j : Nat} {u : Thread} (hne : j ≠ i)
    (hj : ts[j]? = some u) : (ts.set i t')[j]? = some u := by
  have hlp := lookup_post ts [] i t' hi j
  rw [List.append_nil] at hlp
  rw [hlp]
  simp [hne, lt_of_lookup hj, hj]

/-- Steps that do not touch the shared relay state and move the stepped
thread to a control point of the same classification preserve the
invariant.  `ex` are freshly spawned threads outside every critical region. -/
lemma SInv.retarget {s : Sys} {ts : List Thread} (h : SInv s ts) {i : Nat}
    {t t' : Thread} (ex : List Thread)
    (hts : ts[i]? = some t)
    (hw : winPhase t' = winPhase t)
    (hp : postStop t' = postStop t)
    (hr : t' = .handlerRemove → t = .handlerRemove)
    (hex : ∀ u ∈ ex, winPhase u = none ∧ postStop u = false ∧
      u ≠ .handlerRemove) :
    SInv s (ts.set i t' ++ ex) := by
  have hi : i < ts.length := lt_of_lookup hts
  constructor
  · exact h.closed_iff
  · intro j u hj hwu
    rw [lookup_post ts ex i t' hi j] at hj
    split_ifs at hj with h1 h2
    · cases hj
      rw [h1]
      exact h.win_thread i t hts (hw ▸ hwu)
    · exact h.win_thread j u hj hwu
    · rcases hex u (mem_of_lookup hj) with ⟨he, -, -⟩
      rw [he] at hwu
      simp at hwu
  · intro w hww
    obtain ⟨u, hu, hcase⟩ := h.winner_phase w hww
    by_cases hwi : w = i
    · subst hwi
      rw [hts] at hu
      cases hu
      refine ⟨t', ?_, ?_⟩
      · rw [lookup_post ts ex w t' hi w]; simp
      · rw [hw]; exact hcase
    · refine ⟨u, ?_, hcase⟩
      rw [lookup_post ts ex i t' hi w]
      simp [hwi, lt_of_lookup hu, hu]
  · exact h.no_winner
  · intro j u hj hpu
    rw [lookup_post ts ex i t' hi j] at hj
    split_ifs at hj with h1 h2
    · cases hj
      exact h.post_stop i t hts (hp ▸ hpu)
    · exact h.post_stop j u hj hpu
    · rcases hex u (mem_of_lookup hj) with ⟨-, he, -⟩
      rw [he] at hpu
      exact absurd hpu (by simp)
  · intro j k tj tk hj hk pj pk
    rw [lookup_post ts ex i t' hi j] at hj
    rw [lookup_post ts ex i t' hi k] at hk
    split_ifs at hj with h1 h2 <;> split_ifs at hk with h3 h4
    · omega
    all_goals (try (cases hj)) <;> (try (cases hk))
    · exact h.post_stop_uniq j k t tk (h1 ▸ hts) hk (hp ▸ pj) pk
    · rcases hex tk (mem_of_lookup hk) with ⟨-, he, -⟩
      rw [he] at pk; exact absurd pk (by simp)
    · exact h.post_stop_uniq j k tj t hj (h3 ▸ hts) pj (hp ▸ pk)
    · exact h.post_stop_uniq j k tj tk hj hk pj pk
    · rcases hex tk (mem_of_lookup hk) with ⟨-, he, -⟩
      rw [he] at pk; exact absurd pk (by simp)
    · rcases hex tj (mem_of_lookup hj) with ⟨-, he, -⟩
      rw [he] at pj; exact absurd pj (by simp)
    · rcases hex tj (mem_of_lookup hj) with ⟨-, he, -⟩
      rw [he] at pj; exact absurd pj (by simp)
    · rcases hex tj (mem_of_lookup hj) with ⟨-, he, -⟩
      rw [he] at pj; exact absurd pj (by simp)
  · exact h.remove_le
  · intro hrm j u hj
    rw [lookup_post ts ex i t' hi j] at hj
    split_ifs at hj with h1 h2
    · cases hj
      rw [hp]
      exact h.remove_no_post hrm i t hts
    · exact h.remove_no_post hrm j u hj
    · exact (hex u (mem_of_lookup hj)).2.1
  · exact h.remove_closed
  · exact h.stop_remove
  · intro j hj
    rw [lookup_post ts ex i t' hi j] at hj
    split_ifs at hj with h1 h2
    · cases hj
      exact h.hrem_closed i ((hr rfl) ▸ hts)
    · exact h.hrem_closed j hj
    · exact absurd rfl (hex _ (mem_of_lookup hj)).2.2

/-- The invariant ignores the written history, the read count, the
disconnect counter and the panic flag. -/
lemma SInv.relax {s : Sys} {ts : List Thread} (h : SInv s ts)
    (w' : List QRChannelItem) (n' m' : Nat) (p' : Bool) :
    SInv { s with written := w', readCount := n', disconnectCount := m',
                  panicked := p' } ts :=
  { closed_iff := h.closed_iff, win_thread := h.win_thread,
    winner_phase := h.winner_phase, no_winner := h.no_winner,
    post_stop := h.post_stop, post_stop_uniq := h.post_stop_uniq,
    remove_le := h.remove_le, remove_no_post := h.remove_no_post,
    remove_closed := h.remove_closed, stop_remove := h.stop_remove,
    hrem_closed := h.hrem_closed }



/-- `SInv.retarget` for steps that spawn nothing. -/
lemma SInv.retargetSet {s : Sys} {ts : List Thread} (h : SInv s ts) {i : Nat}
    {t t' : Thread}
    (hts : ts[i]? = some t)
    (hw : winPhase t' = winPhase t)
    (hp : postStop t' = postStop t)
    (hr : t' = .handlerRemove → t = .handlerRemove) :
    SInv s (ts.set i t') := by
  have := h.retarget [] hts hw hp hr (by simp)
  rwa [List.append_nil] at this

/-- `close(qrc.stopQRs)` when the stop channel is still open. -/
lemma SInv.closeStop {s : Sys} {ts : List Thread} (h : SInv s ts) {i : Nat}
    {v : QRChannelItem} (hts : ts[i]? = some (.handlerCloseStop v))
    (hstop : s.stopClosed = false) :
    SInv { s with stopClosed := true } (ts.set i (.handlerCas v)) := by
  have hi : i < ts.length := lt_of_lookup hts
  have hnone : ∀ (j : Nat) (u : Thread), ts[j]? = some u → postStop u = false := by
    intro j u hj
    by_contra hc
    rw [h.post_stop j u hj (by simpa using hc)] at hstop
    exact Bool.noConfusion hstop
  have hrm : s.removeHandlerCount = 0 := h.stop_remove hstop
  have hset := lookup_set (Thread.handlerCas v) hi
  constructor
  · exact h.closed_iff
  · intro j u hj hwu
    rcases hset j u hj with ⟨h1, h2⟩ | ⟨h1, h2⟩
    · rw [h2] at hwu; simp [winPhase] at hwu
    · exact h.win_thread j u h2 hwu
  · intro w hww
    obtain ⟨u, hu, hcase⟩ := h.winner_phase w hww
    by_cases hwi : w = i
    · subst hwi
      rw [hts] at hu
      cases hu
      refine ⟨.handlerCas v, lookup_set_self hi, ?_⟩
      simpa [winPhase] using hcase
    · exact ⟨u, lookup_set_other hi hwi hu, hcase⟩
  · exact h.no_winner
  · intro j u hj hpu
    rfl
  · intro j k tj tk hj hk pj pk
    rcases hset j tj hj with ⟨h1, h2⟩ | ⟨h1, h2⟩ <;>
      rcases hset k tk hk with ⟨h3, h4⟩ | ⟨h3, h4⟩
    · omega
    · rw [hnone k tk h4] at pk; exact Bool.noConfusion pk
    · rw [hnone j tj h2] at pj; exact Bool.noConfusion pj
    · rw [hnone j tj h2] at pj; exact Bool.noConfusion pj
  · exact h.remove_le
  · intro hge
    rw [hrm] at hge
    omega
  · exact h.remove_closed
  · intro hsc
    exact hrm
  · intro j hj
    rcases hset j _ hj with ⟨h1, h2⟩ | ⟨h1, h2⟩
    · exact Thread.noConfusion h2
    · exact h.hrem_closed j h2

/-- A won compare-and-swap: the stepped thread moves to its terminal-write
point and becomes the recorded winner. -/
lemma SInv.casWin {s : Sys} {ts : List Thread} (h : SInv s ts) {i : Nat}
    {t t' : Thread} (hts : ts[i]? = some t)
    (hcl : s.closed = false)
    (hw' : winPhase t' = some 1)
    (hpp : postStop t' = postStop t) :
    SInv { s with closed := true, casWinner := some i } (ts.set i t') := by
  have hi : i < ts.length := lt_of_lookup hts
  have hwn : s.casWinner = none := by
    have := h.closed_iff
    rw [hcl] at this
    cases hcw : s.casWinner with
    | none => rfl
    | some w => rw [hcw] at this; exact Bool.noConfusion this
  obtain ⟨htw, hcls, hoc⟩ := h.no_winner hwn
  have hset := lookup_set t' hi
  constructor
  · rfl
  · intro j u hj hwu
    rcases hset j u hj with ⟨h1, h2⟩ | ⟨h1, h2⟩
    · rw [h1]
    · have := h.win_thread j u h2 hwu
      rw [hwn] at this
      exact Option.noConfusion this
  · intro w hww
    have hwi : w = i := by
      have : (some w : Option Nat) = some i := hww.symm.trans rfl
      exact Option.some.inj this.symm ▸ (Option.some.inj hww.symm).symm
    subst hwi
    exact ⟨t', lookup_set_self hi, Or.inl ⟨hw', htw, hcls, hoc⟩⟩
  · intro hcw
    exact Option.noConfusion hcw
  · intro j u hj hpu
    rcases hset j u hj with ⟨h1, h2⟩ | ⟨h1, h2⟩
    · rw [h2, hpp] at hpu
      exact h.post_stop i t hts hpu
    · exact h.post_stop j u h2 hpu
  · intro j k tj tk hj hk pj pk
    rcases hset j tj hj with ⟨h1, h2⟩ | ⟨h1, h2⟩ <;>
      rcases hset k tk hk with ⟨h3, h4⟩ | ⟨h3, h4⟩
    · omega
    · rw [h2, hpp] at pj
      exact h.post_stop_uniq j k t tk (h1 ▸ hts) h4 pj pk
    · rw [h4, hpp] at pk
      exact h.post_stop_uniq j k tj t h2 (h3 ▸ hts) pj pk
    · exact h.post_stop_uniq j k tj tk h2 h4 pj pk
  · exact h.remove_le
  · intro hge j u hj
    rcases hset j u hj with ⟨h1, h2⟩ | ⟨h1, h2⟩
    · rw [h2, hpp]
      exact h.remove_no_post hge i t hts
    · exact h.remove_no_post hge j u h2
  · intro hge
    rfl
  · exact h.stop_remove
  · intro j hj
    rfl

/-- A lost compare-and-swap in `handleEvent`: the handler skips to
`RemoveEventHandler`. -/
lemma SInv.casLose {s : Sys} {ts : List Thread} (h : SInv s ts) {i : Nat}
    {v : QRChannelItem} (hts : ts[i]? = some (.handlerCas v))
    (hcl : s.closed = true) :
    SInv s (ts.set i .handlerRemove) := by
  have hi : i < ts.length := lt_of_lookup hts
  have hset := lookup_set Thread.handlerRemove hi
  constructor
  · exact h.closed_iff
  · intro j u hj hwu
    rcases hset j u hj with ⟨h1, h2⟩ | ⟨h1, h2⟩
    · rw [h2] at hwu; simp [winPhase] at hwu
    · exact h.win_thread j u h2 hwu
  · intro w hww
    obtain ⟨u, hu, hcase⟩ := h.winner_phase w hww
    by_cases hwi : w = i
    · subst hwi
      rw [hts] at hu
      cases hu
      refine ⟨.handlerRemove, lookup_set_self hi, ?_⟩
      simpa [winPhase] using hcase
    · exact ⟨u, lookup_set_other hi hwi hu, hcase⟩
  · exact h.no_winner
  · intro j u hj hpu
    rcases hset j u hj with ⟨h1, h2⟩ | ⟨h1, h2⟩
    · exact h.post_stop i _ hts (by rw [h2] at hpu; exact hpu)
    · exact h.post_stop j u h2 hpu
  · intro j k tj tk hj hk pj pk
    rcases hset j tj hj with ⟨h1, h2⟩ | ⟨h1, h2⟩ <;>
      rcases hset k tk hk with ⟨h3, h4⟩ | ⟨h3, h4⟩
    · omega
    · exact h.post_stop_uniq j k (Thread.handlerCas v) tk (h1 ▸ hts) h4 rfl pk
    · exact h.post_stop_uniq j k tj (Thread.handlerCas v) h2 (h3 ▸ hts) pj rfl
    · exact h.post_stop_uniq j k tj tk h2 h4 pj pk
  · exact h.remove_le
  · intro hge j u hj
    have := h.remove_no_post hge i _ hts
    exact Bool.noConfusion this
  · exact h.remove_closed
  · exact h.stop_remove
  · intro j hj
    exact hcl

/-- The winner's terminal write: phase 1 to phase 2. -/
lemma SInv.sendWin {s : Sys} {ts : List Thread} (h : SInv s ts) {i : Nat}
    {t t' : Thread} {v : QRChannelItem} (hts : ts[i]? = some t)
    (hw1 : winPhase t = some 1)
    (hw2 : winPhase t' = some 2)
    (hpp : postStop t' = postStop t)
    (hr' : t' ≠ .handlerRemove) :
    SInv { s with written := s.written ++ [v],
                  terminalWriters := s.terminalWriters ++ [i] }
      (ts.set i t') := by
  have hi : i < ts.length := lt_of_lookup hts
  have hset := lookup_set t' hi
  have hwin : s.casWinner = some i := h.win_thread i t hts (by rw [hw1]; rfl)
  obtain ⟨u, hu, hcase⟩ := h.winner_phase i hwin
  rw [hts] at hu
  cases hu
  have hphase : s.terminalWriters = [] ∧ s.closers = [] ∧ s.outClosed = false := by
    rcases hcase with ⟨-, h2, h3, h4⟩ | ⟨hc, -⟩ | ⟨hc, -⟩
    · exact ⟨h2, h3, h4⟩
    · rw [hw1] at hc; exact absurd hc (by simp)
    · rw [hw1] at hc; exact absurd hc (by simp)
  obtain ⟨htw, hcls, hoc⟩ := hphase
  constructor
  · exact h.closed_iff
  · intro j u hj hwu
    rcases hset j u hj with ⟨h1, h2⟩ | ⟨h1, h2⟩
    · rw [h1]; exact hwin
    · exact h.win_thread j u h2 hwu
  · intro w hww
    have hwi : w = i := by
      rw [hwin] at hww
      exact (Option.some.inj hww).symm
    subst hwi
    refine ⟨t', lookup_set_self hi, Or.inr (Or.inl ⟨hw2, ?_, hcls, hoc⟩)⟩
    rw [htw]
    rfl
  · intro hcw
    rw [hwin] at hcw
    exact Option.noConfusion hcw
  · intro j u hj hpu
    rcases hset j u hj with ⟨h1, h2⟩ | ⟨h1, h2⟩
    · rw [h2, hpp] at hpu
      exact h.post_stop i t hts hpu
    · exact h.post_stop j u h2 hpu
  · intro j k tj tk hj hk pj pk
    rcases hset j tj hj with ⟨h1, h2⟩ | ⟨h1, h2⟩ <;>
      rcases hset k tk hk with ⟨h3, h4⟩ | ⟨h3, h4⟩
    · omega
    · rw [h2, hpp] at pj
      exact h.post_stop_uniq j k t tk (h1 ▸ hts) h4 pj pk
    · rw [h4, hpp] at pk
      exact h.post_stop_uniq j k tj t h2 (h3 ▸ hts) pj pk
    · exact h.post_stop_uniq j k tj tk h2 h4 pj pk
  · exact h.remove_le
  · intro hge j u hj
    rcases hset j u hj with ⟨h1, h2⟩ | ⟨h1, h2⟩
    · rw [h2, hpp]
      exact h.remove_no_post hge i t hts
    · exact h.remove_no_post hge j u h2
  · exact h.remove_closed
  · exact h.stop_remove
  · intro j hj
    rcases hset j _ hj with ⟨h1, h2⟩ | ⟨h1, h2⟩
    · exact absurd h2.symm hr'
    · exact h.hrem_closed j h2

/-- The winner's stream close: phase 2 to the closed phase. -/
lemma SInv.closeWin {s : Sys} {ts : List Thread} (h : SInv s ts) {i : Nat}
    {t t' : Thread} (hts : ts[i]? = some t)
    (hw2 : winPhase t = some 2)
    (hw3 : winPhase t' = none)
    (hpp : postStop t' = postStop t) :
    SInv { s with outClosed := true, closers := s.closers ++ [i] }
      (ts.set i t') := by
  have hi : i < ts.length := lt_of_lookup hts
  have hset := lookup_set t' hi
  have hwin : s.casWinner = some i := h.win_thread i t hts (by rw [hw2]; rfl)
  obtain ⟨u, hu, hcase⟩ := h.winner_phase i hwin
  rw [hts] at hu
  cases hu
  have hphase : s.terminalWriters = [i] ∧ s.closers = [] := by
    rcases hcase with ⟨hc, -⟩ | ⟨-, h2, h3, -⟩ | ⟨hc, -⟩
    · rw [hw2] at hc; exact absurd hc (by simp)
    · exact ⟨h2, h3⟩
    · rw [hw2] at hc; exact absurd hc (by simp)
  obtain ⟨htw, hcls⟩ := hphase
  have hclosed : s.closed = true := by
    rw [h.closed_iff, hwin]
    rfl
  constructor
  · exact h.closed_iff
  · intro j u hj hwu
    rcases hset j u hj with ⟨h1, h2⟩ | ⟨h1, h2⟩
    · rw [h2, hw3] at hwu
      exact absurd hwu (by simp)
    · exact h.win_thread j u h2 hwu
  · intro w hww
    have hwi : w = i := by
      rw [hwin] at hww
      exact (Option.some.inj hww).symm
    subst hwi
    refine ⟨t', lookup_set_self hi, Or.inr (Or.inr ⟨hw3, htw, ?_, rfl⟩)⟩
    rw [hcls]
    rfl
  · intro hcw
    rw [hwin] at hcw
    exact Option.noConfusion hcw
  · intro j u hj hpu
    rcases hset j u hj with ⟨h1, h2⟩ | ⟨h1, h2⟩
    · rw [h2, hpp] at hpu
      exact h.post_stop i t hts hpu
    · exact h.post_stop j u h2 hpu
  · intro j k tj tk hj hk pj pk
    rcases hset j tj hj with ⟨h1, h2⟩ | ⟨h1, h2⟩ <;>
      rcases hset k tk hk with ⟨h3, h4⟩ | ⟨h3, h4⟩
    · omega
    · rw [h2, hpp] at pj
      exact h.post_stop_uniq j k t tk (h1 ▸ hts) h4 pj pk
    · rw [h4, hpp] at pk
      exact h.post_stop_uniq j k tj t h2 (h3 ▸ hts) pj pk
    · exact h.post_stop_uniq j k tj tk h2 h4 pj pk
  · exact h.remove_le
  · intro hge j u hj
    rcases hset j u hj with ⟨h1, h2⟩ | ⟨h1, h2⟩
    · rw [h2, hpp]
      exact h.remove_no_post hge i t hts
    · exact h.remove_no_post hge j u h2
  · exact h.remove_closed
  · exact h.stop_remove
  · intro j hj
    exact hclosed

/-- `RemoveEventHandler`: one unsubscription by a post-`closeStop` handler. -/
lemma SInv.removeStep {s : Sys} {ts : List Thread} (h : SInv s ts) {i : Nat}
    (hts : ts[i]? = some .handlerRemove) :
    SInv { s with removeHandlerCount := s.removeHandlerCount + 1 }
      (ts.set i .done) := by
  have hi : i < ts.length := lt_of_lookup hts
  have hset := lookup_set Thread.done hi
  have hclosed : s.closed = true := h.hrem_closed i hts
  have hrm0 : s.removeHandlerCount = 0 := by
    by_contra hc
    have hge : 1 ≤ s.removeHandlerCount := by omega
    have := h.remove_no_post hge i _ hts
    exact Bool.noConfusion this
  constructor
  · exact h.closed_iff
  · intro j u hj hwu
    rcases hset j u hj with ⟨h1, h2⟩ | ⟨h1, h2⟩
    · rw [h2] at hwu; simp [winPhase] at hwu
    · exact h.win_thread j u h2 hwu
  · intro w hww
    obtain ⟨u, hu, hcase⟩ := h.winner_phase w hww
    by_cases hwi : w = i
    · subst hwi
      rw [hts] at hu
      cases hu
      refine ⟨.done, lookup_set_self hi, ?_⟩
      simpa [winPhase] using hcase
    · exact ⟨u, lookup_set_other hi hwi hu, hcase⟩
  · exact h.no_winner
  · intro j u hj hpu
    rcases hset j u hj with ⟨h1, h2⟩ | ⟨h1, h2⟩
    · rw [h2] at hpu; exact Bool.noConfusion hpu
    · exact h.post_stop j u h2 hpu
  · intro j k tj tk hj hk pj pk
    rcases hset j tj hj with ⟨h1, h2⟩ | ⟨h1, h2⟩ <;>
      rcases hset k tk hk with ⟨h3, h4⟩ | ⟨h3, h4⟩
    · omega
    · rw [h2] at pj; exact Bool.noConfusion pj
    · rw [h4] at pk; exact Bool.noConfusion pk
    · exact h.post_stop_uniq j k tj tk h2 h4 pj pk
  · rw [hrm0]
  · intro hge j u hj
    rcases hset j u hj with ⟨h1, h2⟩ | ⟨h1, h2⟩
    · rw [h2]; rfl
    · by_contra hc
      have hpu : postStop u = true := by simpa using hc
      have := h.post_stop_uniq j i u .handlerRemove h2 hts hpu rfl
      exact h1 this
  · intro hge
    exact hclosed
  · intro hsc
    have := h.post_stop i _ hts rfl
    rw [this] at hsc
    exact Bool.noConfusion hsc
  · intro j hj
    exact hclosed

/-- The structural invariant implies the C1 claim-level invariant. -/
lemma SInv.relay {s : Sys} {ts : List Thread} (h : SInv s ts) :
    relayInv s = true := by
  unfold relayInv
  cases hcw : s.casWinner with
  | none =>
    obtain ⟨h1, h2, h3⟩ := h.no_winner hcw
    simp [h1, h2, h3]
  | some w =>
    have hcl : s.closed = true := by rw [h.closed_iff, hcw]; rfl
    obtain ⟨t, ht, hcase⟩ := h.winner_phase w hcw
    rcases hcase with ⟨-, h1, h2, h3⟩ | ⟨-, h1, h2, h3⟩ | ⟨-, h1, h2, h3⟩ <;>
      simp [h1, h2, h3, hcw, hcl]

/-- The structural invariant implies the C7 claim-level invariant. -/
lemma SInv.unsub {s : Sys} {ts : List Thread} (h : SInv s ts) :
    unsubInv s = true := by
  unfold unsubInv
  have h1 := h.remove_le
  cases hrm : s.removeHandlerCount with
  | zero => simp
  | succ n =>
    have hcl : s.closed = true := h.remove_closed (by omega)
    simp [hcl]
    omega

/-- Fresh relays satisfy the structural invariant. -/
lemma sinv_init (evts : List Event) :
    SInv freshSys (evts.map Thread.handlerStart) := by
  have hstart : ∀ (i : Nat) (t : Thread),
      (evts.map Thread.handlerStart)[i]? = some t →
      ∃ e, t = Thread.handlerStart e := by
    intro i t ht
    rw [List.getElem?_map] at ht
    cases he : evts[i]? with
    | none => rw [he] at ht; exact Option.noConfusion ht
    | some e =>
      rw [he] at ht
      exact ⟨e, (Option.some.inj ht).symm⟩
  constructor
  · rfl
  · intro i t ht hw
    obtain ⟨e, he⟩ := hstart i t ht
    rw [he] at hw
    simp [winPhase] at hw
  · intro w hw
    exact Option.noConfusion hw
  · intro hw
    exact ⟨rfl, rfl, rfl⟩
  · intro i t ht hp
    obtain ⟨e, he⟩ := hstart i t ht
    rw [he] at hp
    exact Bool.noConfusion hp
  · intro i j ti tj hi hj pi pj
    obtain ⟨e, he⟩ := hstart i ti hi
    rw [he] at pi
    exact Bool.noConfusion pi
  · exact Nat.zero_le 1
  · intro hge
    simp [freshSys] at hge
  · intro hge
    simp [freshSys] at hge
  · intro hs
    rfl
  · intro i hi
    obtain ⟨e, he⟩ := hstart i _ hi
    exact Thread.noConfusion he

/-- After a panic nothing moves. -/
lemma step_panicked (cfg : Config) (a : SchedAct)
    (hp : cfg.st.panicked = true) : step cfg a = cfg := by
  cases a <;> simp [step, hp]

lemma ginv_of_sinv {cfg : Config} (hnp : cfg.st.panicked = false)
    (hs : SInv cfg.st cfg.threads) : GInv cfg := by
  unfold GInv
  rw [if_neg (by rw [hnp]; exact Bool.false_ne_true)]
  exact hs

lemma ginv_of_panic {cfg : Config} (hp : cfg.st.panicked = true)
    (h1 : relayInv cfg.st = true) (h2 : unsubInv cfg.st = true) : GInv cfg := by
  unfold GInv
  rw [if_pos hp]
  exact ⟨h1, h2⟩

/-- One scheduler step preserves the global invariant. -/
lemma ginv_step (cfg : Config) (a : SchedAct) (h : GInv cfg) :
    GInv (step cfg a) := by
  by_cases hp : cfg.st.panicked = true
  · rw [step_panicked cfg a hp]
    exact h
  · have hnp : cfg.st.panicked = false := by
      revert hp
      cases cfg.st.panicked <;> simp
    have hs : SInv cfg.st cfg.threads := by
      unfold GInv at h
      rw [if_neg hp] at h
      exact h
    cases a with
    | read =>
      simp only [step, hnp, Bool.false_eq_true, if_false]
      split
      · exact ginv_of_sinv rfl
          (hs.relax cfg.st.written (cfg.st.readCount + 1)
            cfg.st.disconnectCount false)
      · exact ginv_of_sinv hnp hs
    | thread i ch =>
      simp only [step, hnp, Bool.false_eq_true, if_false]
      cases hts : cfg.threads[i]? with
      | none => exact ginv_of_sinv hnp hs
      | some t =>
        cases t with
        | handlerStart evt =>
          cases evt with
          | qr codes tmo =>
            exact ginv_of_sinv hnp
              (hs.retarget [Thread.emitLoop codes] hts rfl rfl
                (fun hh => Thread.noConfusion hh)
                (by
                  intro u hu
                  rw [List.mem_singleton] at hu
                  subst hu
                  exact ⟨rfl, rfl, fun hh => Thread.noConfusion hh⟩))
          | pairSuccess =>
            exact ginv_of_sinv hnp
              (hs.retargetSet hts rfl rfl (fun hh => Thread.noConfusion hh))
          | disconnected =>
            exact ginv_of_sinv hnp
              (hs.retargetSet hts rfl rfl (fun hh => Thread.noConfusion hh))
          | connected =>
            exact ginv_of_sinv hnp
              (hs.retargetSet hts rfl rfl (fun hh => Thread.noConfusion hh))
          | connectFailure =>
            exact ginv_of_sinv hnp
              (hs.retargetSet hts rfl rfl (fun hh => Thread.noConfusion hh))
          | other =>
            exact ginv_of_sinv hnp
              (hs.retargetSet hts rfl rfl (fun hh => Thread.noConfusion hh))
        | handlerCloseStop v =>
          simp only [stepThread]
          split
          · exact ginv_of_panic rfl hs.relay hs.unsub
          · next hc =>
            have hc' : cfg.st.stopClosed = false := by
              revert hc
              cases cfg.st.stopClosed <;> simp
            exact ginv_of_sinv hnp (hs.closeStop hts hc')
        | handlerCas v =>
          simp only [stepThread]
          split
          · next hc => exact ginv_of_sinv hnp (hs.casLose hts hc)
          · next hc =>
            have hc' : cfg.st.closed = false := by
              revert hc
              cases cfg.st.closed <;> simp
            exact ginv_of_sinv hnp (hs.casWin hts hc' rfl rfl)
        | handlerSend v =>
          simp only [stepThread]
          split
          · exact ginv_of_panic rfl hs.relay hs.unsub
          · split
            · exact ginv_of_sinv hnp
                (hs.retargetSet hts rfl rfl (fun hh => Thread.noConfusion hh))
            · exact ginv_of_sinv hnp
                (hs.sendWin hts rfl rfl rfl (fun hh => Thread.noConfusion hh))
        | handlerCloseOut =>
          simp only [stepThread]
          split
          · exact ginv_of_panic rfl hs.relay hs.unsub
          · exact ginv_of_sinv hnp (hs.closeWin hts rfl rfl rfl)
        | handlerRemove =>
          exact ginv_of_sinv hnp (hs.removeStep hts)
        | emitLoop codes =>
          cases codes with
          | nil =>
            exact ginv_of_sinv hnp
              (hs.retargetSet hts rfl rfl (fun hh => Thread.noConfusion hh))
          | cons c rest =>
            exact ginv_of_sinv hnp
              (hs.retargetSet hts rfl rfl (fun hh => Thread.noConfusion hh))
        | emitCas =>
          simp only [stepThread]
          split
          · exact ginv_of_sinv hnp
              (hs.retargetSet hts rfl rfl (fun hh => Thread.noConfusion hh))
          · next hc =>
            have hc' : cfg.st.closed = false := by
              revert hc
              cases cfg.st.closed <;> simp
            exact ginv_of_sinv hnp (hs.casWin hts hc' rfl rfl)
        | emitSendTimeout =>
          simp only [stepThread]
          split
          · exact ginv_of_panic rfl hs.relay hs.unsub
          · split
            · exact ginv_of_sinv hnp
                (hs.retargetSet hts rfl rfl (fun hh => Thread.noConfusion hh))
            · exact ginv_of_sinv hnp
                (hs.sendWin hts rfl rfl rfl (fun hh => Thread.noConfusion hh))
        | emitCloseOut =>
          simp only [stepThread]
          split
          · exact ginv_of_panic rfl hs.relay hs.unsub
          · exact ginv_of_sinv hnp (hs.closeWin hts rfl rfl rfl)
        | emitDisconnect =>
          exact ginv_of_sinv hnp
            ((hs.relax cfg.st.written cfg.st.readCount
                (cfg.st.disconnectCount + 1) cfg.st.panicked).retargetSet hts
              rfl rfl (fun hh => Thread.noConfusion hh))
        | emitTrySend c rest =>
          simp only [stepThread]
          split
          · exact ginv_of_panic rfl hs.relay hs.unsub
          · split
            · exact ginv_of_sinv hnp
                (hs.retargetSet hts rfl rfl (fun hh => Thread.noConfusion hh))
            · exact ginv_of_sinv hnp
                ((hs.relax (cfg.st.written ++ [c]) cfg.st.readCount
                    cfg.st.disconnectCount cfg.st.panicked).retargetSet hts
                  rfl rfl (fun hh => Thread.noConfusion hh))
        | emitWait rest =>
          simp only [stepThread]
          split
          · exact ginv_of_sinv hnp
              (hs.retargetSet hts rfl rfl (fun hh => Thread.noConfusion hh))
          · exact ginv_of_sinv hnp
              (hs.retargetSet hts rfl rfl (fun hh => Thread.noConfusion hh))
        | done =>
          exact ginv_of_sinv hnp
            (hs.retargetSet hts rfl rfl (fun hh => hh))

/-- The global invariant holds along every schedule. -/
lemma ginv_run (acts : List SchedAct) : ∀ (cfg : Config), GInv cfg →
    GInv (run cfg acts) := by
  induction acts with
  | nil => intro cfg h; exact h
  | cons a rest ih => intro cfg h; exact ih (step cfg a) (ginv_step cfg a h)

/-- Fresh relays satisfy the global invariant. -/
lemma ginv_init (evts : List Event) : GInv (initConfig evts) :=
  ginv_of_sinv rfl (sinv_init evts)

lemma ginv_relay {cfg : Config} (h : GInv cfg) : relayInv cfg.st = true := by
  unfold GInv at h
  split at h
  · exact h.1
  · exact h.relay

lemma ginv_unsub {cfg : Config} (h : GInv cfg) : unsubInv cfg.st = true := by
  unfold GInv at h
  split at h
  · exact h.2
  · exact h.unsub

/-- `QROnly` is preserved by every step. -/
lemma qronly_step (cfg : Config) (a : SchedAct) (h : QROnly cfg) :
    QROnly (step cfg a) := by
  obtain ⟨hth, hrm⟩ := h
  by_cases hp : cfg.st.panicked = true
  · rw [step_panicked cfg a hp]
    exact ⟨hth, hrm⟩
  · have hnp : cfg.st.panicked = false := by
      revert hp
      cases cfg.st.panicked <;> simp
    cases a with
    | read =>
      simp only [step, hnp, Bool.false_eq_true, if_false]
      split
      · exact ⟨hth, hrm⟩
      · exact ⟨hth, hrm⟩
    | thread i ch =>
      simp only [step, hnp, Bool.false_eq_true, if_false]
      cases hts : cfg.threads[i]? with
      | none => exact ⟨hth, hrm⟩
      | some t =>
          have hi : i < cfg.threads.length := lt_of_lookup hts
          have hnr : noRemove t = true := hth i t hts
          have hone : ∀ (t' : Thread), noRemove t' = true →
              (∀ (j : Nat) (u : Thread),
                (cfg.threads.set i t')[j]? = some u → noRemove u = true) := by
            intro t' hnr' j u hj
            rcases lookup_set t' hi j u hj with ⟨-, h2⟩ | ⟨-, h2⟩
            · rw [h2]; exact hnr'
            · exact hth j u h2
          have htwo : ∀ (t' t2 : Thread), noRemove t' = true →
              noRemove t2 = true →
              (∀ (j : Nat) (u : Thread),
                (cfg.threads.set i t' ++ [t2])[j]? = some u →
                noRemove u = true) := by
            intro t' t2 hnr' hnr2 j u hj
            rw [lookup_post cfg.threads [t2] i t' hi j] at hj
            split_ifs at hj with h1 h2
            · cases hj; exact hnr'
            · exact hth j u hj
            · have := mem_of_lookup hj
              rw [List.mem_singleton] at this
              rw [this]; exact hnr2
          cases t with
          | handlerStart evt =>
            cases evt with
            | qr codes tmo => exact ⟨htwo .done (.emitLoop codes) rfl rfl, hrm⟩
            | other => exact ⟨hone .done rfl, hrm⟩
            | pairSuccess => exact Bool.noConfusion hnr
            | disconnected => exact Bool.noConfusion hnr
            | connected => exact Bool.noConfusion hnr
            | connectFailure => exact Bool.noConfusion hnr
          | handlerCloseStop v => exact Bool.noConfusion hnr
          | handlerCas v => exact Bool.noConfusion hnr
          | handlerSend v => exact Bool.noConfusion hnr
          | handlerCloseOut => exact Bool.noConfusion hnr
          | handlerRemove => exact Bool.noConfusion hnr
          | emitLoop codes =>
            cases codes with
            | nil => exact ⟨hone .emitCas rfl, hrm⟩
            | cons c rest => exact ⟨hone (.emitTrySend c rest) rfl, hrm⟩
          | emitCas =>
            simp only [stepThread]
            split
            · exact ⟨hone .done rfl, hrm⟩
            · exact ⟨hone .emitSendTimeout rfl, hrm⟩
          | emitSendTimeout =>
            simp only [stepThread]
            split
            · exact ⟨hone .done rfl, hrm⟩
            · split
              · exact ⟨hone .emitSendTimeout rfl, hrm⟩
              · exact ⟨hone .emitCloseOut rfl, hrm⟩
          | emitCloseOut =>
            simp only [stepThread]
            split
            · exact ⟨hone .done rfl, hrm⟩
            · exact ⟨hone .emitDisconnect rfl, hrm⟩
          | emitDisconnect => exact ⟨hone .done rfl, hrm⟩
          | emitTrySend c rest =>
            simp only [stepThread]
            split
            · exact ⟨hone .done rfl, hrm⟩
            · split
              · exact ⟨hone .done rfl, hrm⟩
              · exact ⟨hone (.emitWait rest) rfl, hrm⟩
          | emitWait rest =>
            simp only [stepThread]
            split
            · exact ⟨hone .done rfl, hrm⟩
            · exact ⟨hone (.emitLoop rest) rfl, hrm⟩
          | done => exact ⟨hone .done rfl, hrm⟩

lemma qronly_run (acts : List SchedAct) : ∀ (cfg : Config), QROnly cfg →
    QROnly (run cfg acts) := by
  induction acts with
  | nil => intro cfg h; exact h
  | cons a rest ih => intro cfg h; exact ih (step cfg a) (qronly_step cfg a h)

lemma qronly_init (ps : List (List String × Nat)) :
    QROnly (initConfig (ps.map (fun p => Event.qr p.1 p.2))) := by
  refine ⟨?_, rfl⟩
  intro i t ht
  unfold initConfig at ht
  rw [List.getElem?_map, List.getElem?_map] at ht
  cases he : ps[i]? with
  | none => rw [he] at ht; exact Option.noConfusion ht
  | some p =>
    rw [he] at ht
    cases ht
    rfl

lemma drain_run : ∀ (rest : List String) (w : List QRChannelItem),
    run ⟨mkClean w, [.done, .emitLoop rest]⟩ (drainSched rest) =
      ⟨drainedSys (w ++ rest), [.done, .done]⟩ := by
  intro rest
  induction rest with
  | nil =>
    intro w
    simp [drainSched, run, step, stepThread, mkClean, freshSys, drainedSys,
      Sys.bufferLen, qrChanCap]
  | cons c rest ih =>
    intro w
    have h4 : step (step (step (step ⟨mkClean w, [.done, .emitLoop (c :: rest)]⟩
        (.thread 1 false)) (.thread 1 false)) .read) (.thread 1 false) =
        ⟨mkClean (w ++ [c]), [.done, .emitLoop rest]⟩ := by
      simp [step, stepThread, mkClean, freshSys, Sys.bufferLen, qrChanCap]
    simp only [drainSched, run, h4, ih (w ++ [c])]
    simp [List.append_assoc]

theorem c5_emitter_normal : ∀ (codes : List String) (t : Nat),
    c5Run codes t = ⟨drainedSys codes, [.done, .done]⟩ ∧
    (c5Run codes t).st.written = codes ++ [QRChannelTimeout] ∧
    (c5Run codes t).st.outClosed = true ∧
    (c5Run codes t).st.disconnectCount = 1 := by
  intro codes t
  have h0 : step (initConfig [.qr codes t]) (.thread 0 false) =
      ⟨mkClean [], [.done, .emitLoop codes]⟩ := rfl
  have h : c5Run codes t = ⟨drainedSys codes, [.done, .done]⟩ := by
    show run (step (initConfig [.qr codes t]) (.thread 0 false)) (drainSched codes) = _
    rw [h0, drain_run codes []]
    simp
  refine ⟨h, ?_, ?_, ?_⟩ <;> rw [h] <;> simp [drainedSys]

theorem c6_empty_seq :
    (∀ w, run ⟨mkClean w, [Thread.done, Thread.emitLoop []]⟩ (drainSched []) =
      ⟨drainedSys w, [.done, .done]⟩) ∧
    emptySeqRun = ⟨drainedSys [], [.done, .done]⟩ ∧
    emptySeqRun.st.written = [QRChannelTimeout] ∧
    emptySeqRun.st.disconnectCount = 1 ∧
    emptySeqRun.st.casWinner = some 1 := by
  refine ⟨?_, by decide, by decide, by decide, by decide⟩
  intro w
  have := drain_run [] w
  simpa using this

theorem c4_dispatch :
    oneHandlerRun .pairSuccess = ⟨termSys QRChannelSuccess, [.done]⟩ ∧
    oneHandlerRun .disconnected = ⟨termSys QRChannelTimeout, [.done]⟩ ∧
    oneHandlerRun .connected = ⟨termSys QRChannelErrUnexpectedEvent, [.done]⟩ ∧
    oneHandlerRun .connectFailure = ⟨termSys QRChannelErrUnexpectedEvent, [.done]⟩ ∧
    (∀ codes t, step (initConfig [.qr codes t]) (.thread 0 false) =
      ⟨freshSys, [.done, .emitLoop codes]⟩) ∧
    step (initConfig [.other]) (.thread 0 false) = ⟨freshSys, [.done]⟩ :=
  ⟨by decide, by decide, by decide, by decide, fun codes t => rfl, by decide⟩

theorem c1_terminal_not_last :
    (run raceInit raceSched).st.written = [QRChannelSuccess, "1@ABC"] ∧
    ((run raceInit raceSched).st.written.getLast?).map QRChannelItem.IsQR = some true ∧
    (run raceInit raceSched).st.outClosed = true ∧
    (run raceInit raceSched).st.terminalWriters = [0] ∧
    (run raceInit raceSched).st.panicked = false := by decide

theorem c2_double_terminal_panics :
    doubleTerminalRun.st.panicked = true ∧
    doubleTerminalRun.st.written = [QRChannelSuccess] := by decide

theorem c7_no_unsub_cex :
    (c5Run ["2@DEF"] 20).st.outClosed = true ∧
    (c5Run ["2@DEF"] 20).st.written = ["2@DEF", QRChannelTimeout] ∧
    (c5Run ["2@DEF"] 20).st.removeHandlerCount = 0 ∧
    (c5Run ["2@DEF"] 20).threads = [.done, .done] ∧
    lostRaceRun.st.removeHandlerCount = 1 ∧
    lostRaceRun.st.written = [] ∧
    lostRaceRun.st.terminalWriters = [] ∧
    lostRaceRun.st.panicked = false := by decide

theorem c8_trySend_full : ∀ (tid : Nat) (ch : Bool) (c : String)
    (rest : List String) (s : Sys), s.outClosed = false →
    qrChanCap ≤ s.bufferLen →
    stepThread tid ch (.emitTrySend c rest) s = (s, .done, none) := by
  intro tid ch c rest s h1 h2
  simp [stepThread, h1, h2]

theorem c8_witness :
    fullBufSys.outClosed = false ∧ qrChanCap ≤ fullBufSys.bufferLen ∧
    stepThread 1 false (.emitTrySend "h" []) fullBufSys = (fullBufSys, .done, none) :=
  ⟨rfl, by decide, c8_trySend_full 1 false "h" [] fullBufSys rfl (by decide)⟩

theorem c3_getQRChannel :
    (∀ sid, Client.GetQRChannel ⟨true, sid⟩ =
      ⟨none, some .ErrQRAlreadyConnected, false⟩) ∧
    (∀ j, Client.GetQRChannel ⟨false, some j⟩ =
      ⟨none, some .ErrQRStoreContainsID, false⟩) ∧
    Client.GetQRChannel ⟨false, none⟩ = ⟨some qrChanCap, none, true⟩ :=
  ⟨fun _ => rfl, fun _ => rfl, rfl⟩

theorem c9_connected_precedence : ∀ j : JID,
    Client.GetQRChannel ⟨true, some j⟩ =
      ⟨none, some .ErrQRAlreadyConnected, false⟩ :=
  fun _ => rfl

theorem c10_device_delete : ∀ (d : Device) (f : Device → Option StoreError),
    Device.Delete d f = (f d, if (f d).isSome then d else { d with ID := none }) := by
  intro d f
  cases h : f d <;> simp [Device.Delete, h]

/-- C1 (amended): in every execution of a relay — any delivered events, any
interleaving — at most one terminal-write statement ever executes, at most
one `close(output)` ever executes, both only by the goroutine that won the
0-to-1 compare-and-swap of the closed flag, the terminal write happens only
with the flag set, and the stream is closed exactly when a close executed.
(The original claim's "the terminal value is the last value written" is
refuted by the C1 counterexample run: a concurrent emitter may slip one
code between the terminal write and the close.) -/
theorem qr_relay_terminal_once : ∀ (evts : List Event) (acts : List SchedAct),
    relayInv (run (initConfig evts) acts).st = true :=
  fun evts acts => ginv_relay (ginv_run acts (initConfig evts) (ginv_init evts))

/-- C7 (amended): in every execution of a relay the bus unsubscription
executes at most once, and only after the closed flag has been set; and in
an execution in which only code-sequence events are delivered (so that
termination comes from sequence exhaustion in `emitQRs`) the relay never
unsubscribes at all — `emitQRs` has no `RemoveEventHandler` call. -/
theorem qr_relay_unsub : (∀ (evts : List Event) (acts : List SchedAct),
      unsubInv (run (initConfig evts) acts).st = true) ∧
    (∀ (ps : List (List String × Nat)) (acts : List SchedAct),
      (run (initConfig (ps.map (fun p => Event.qr p.1 p.2)))
        acts).st.removeHandlerCount = 0) :=
  ⟨fun evts acts => ginv_unsub (ginv_run acts (initConfig evts) (ginv_init evts)),
   fun ps acts => (qronly_run acts _ (qronly_init ps)).2⟩

end Whatsmeow
